import Mathlib

/-!
Verification of the hunk-context expander
(src/gitbutler-app/src/virtual_branches/context.rs, function
hunk_with_context).

Embedding conventions:
* Rust strings are embedded as List Char; a slice of lines as
  List (List Char).
* usize values are embedded as Nat.  Rust arithmetic on usize is checked
  in debug builds: subtraction below zero aborts the process.  Such an
  abort is modelled explicitly by the RunError.crash constructor, as is
  an out-of-bounds index panic.  The as-u32 casts at the end of the
  source function truncate, which is modelled by reduction modulo 2^32.
* isize is a 64-bit signed integer; str::parse::<isize> is embedded as
  parseIsize, including its range check.
* anyhow errors produced through the ? operator are modelled by the
  RunError.parseError constructor.
-/

set_option maxRecDepth 10000

namespace GitButler

/-- Outcome of a failing run: a crash models a Rust panic (checked
subtraction below zero, or a slice index out of bounds); parseError
models the anyhow error produced when a unidiff header field does not
parse. -/
inductive RunError where
  | crash (msg : String)
  | parseError (msg : String)
  deriving DecidableEq, Repr

/-- The output structure, git::diff::Hunk (context.rs lines 96-103).
The four numeric fields are u32 in the source; the embedding stores
them as Nat already reduced modulo 2^32 by the construction site. -/
structure Hunk where
  diff : List Char
  old_start : Nat
  old_lines : Nat
  new_start : Nat
  new_lines : Nat
  binary : Bool
  deriving DecidableEq, Repr

/-- Embeds str::starts_with(char) applied to one line. -/
def startsWithChar (c : Char) : List Char → Bool
  | [] => false
  | d :: _ => d = c

/-- Strip one trailing carriage return, as str::lines does for each line
that was terminated by a newline. -/
def stripCr (l : List Char) : List Char :=
  if l.getLast? = some '\r' then l.dropLast else l

/-- Embeds str::split with a character predicate: the list of (possibly
empty) chunks between separator characters.  Always returns at least
one chunk. -/
def splitOnPred (p : Char → Bool) : List Char → List (List Char)
  | [] => [[]]
  | c :: rest =>
    if p c then [] :: splitOnPred p rest
    else
      match splitOnPred p rest with
      | [] => [[c]]
      | l :: ls => (c :: l) :: ls

/-- Embeds str::lines (context.rs lines 11-14): split on newline, drop
the chunk after a terminating final newline, and strip a carriage
return from every line that was newline-terminated. -/
def rustLines (s : List Char) : List (List Char) :=
  let parts := splitOnPred (fun c => c = '\n') s
  match parts.getLast? with
  | some [] => parts.dropLast.map stripCr
  | some t => parts.dropLast.map stripCr ++ [t]
  | none => []

/-- Count of body lines starting with a minus sign (context.rs lines
16-19); the filter runs over all lines of the hunk, header included. -/
def removedCount (hunk_diff : List Char) : Nat :=
  (rustLines hunk_diff).countP (startsWithChar '-')

/-- Count of body lines starting with a plus sign (context.rs lines
20-23). -/
def addedCount (hunk_diff : List Char) : Nat :=
  (rustLines hunk_diff).countP (startsWithChar '+')

/-- Context lines before the hunk (context.rs lines 25-39): for i in
1..=context_lines, when hunk_start_line > i and the index
hunk_start_line - i - 1 is in bounds, take that file line prefixed with
a space; the collected list is reversed into ascending file order. -/
def contextBefore (hunk_start_line context_lines : Nat)
    (file_lines_before : List (List Char)) : List (List Char) :=
  ((List.range' 1 context_lines).filterMap (fun i =>
    if hunk_start_line > i then
      let idx := hunk_start_line - i - 1
      if idx < file_lines_before.length then
        (file_lines_before.get? idx).map (fun l => ' ' :: l)
      else none
    else none)).reverse

/-- One iteration of the context-after loop (context.rs lines 44-52):
the checked index computation hunk_start_line + removed_count + i - 1
first performs the two checked usize additions, which abort when the
sum exceeds usize::MAX (2^64 - 1 on the 64-bit target), then the
checked subtraction, which aborts when the sum is zero, and finally the
bounds check decides whether the space-prefixed file line is appended.
Whether the first or the second addition overflows, the abort message
is the same, so a single check on the full sum is an exact model. -/
def afterStep (hunk_start_line removed_count : Nat)
    (file_lines_before : List (List Char))
    (acc : List (List Char)) (i : Nat) :
    Except RunError (List (List Char)) :=
  if 18446744073709551615 < hunk_start_line + removed_count + i then
    Except.error (RunError.crash "attempt to add with overflow")
  else if hunk_start_line + removed_count + i = 0 then
    Except.error (RunError.crash "attempt to subtract with overflow")
  else
    let idx := hunk_start_line + removed_count + i - 1
    if idx < file_lines_before.length then
      match file_lines_before.get? idx with
      | some l => Except.ok (acc ++ [' ' :: l])
      | none => Except.ok acc
    else Except.ok acc

/-- Context lines after the hunk (context.rs lines 41-53).  The source
computes the checked usize expression context_lines - 1 first, which
aborts when context_lines is 0; otherwise the loop runs for i in
0..=(context_lines - 1). -/
def contextAfter (hunk_start_line removed_count context_lines : Nat)
    (file_lines_before : List (List Char)) :
    Except RunError (List (List Char)) :=
  if context_lines = 0 then
    Except.error (RunError.crash "attempt to subtract with overflow")
  else
    let e := context_lines - 1
    (List.range' 0 (e + 1)).foldlM
      (afterStep hunk_start_line removed_count file_lines_before) []

/-- Header tokenisation (context.rs lines 59-62): split the first line
on spaces and at-signs and keep the non-empty chunks. -/
def headerTokens (header : List Char) : List (List Char) :=
  (splitOnPred (fun c => c = ' ' || c = '@') header).filter
    (fun s => !s.isEmpty)

/-- The part of a header token before the first comma (context.rs
lines 63 and 69: token.split(',')...[0]). -/
def commaHead (t : List Char) : List Char :=
  (splitOnPred (fun c => c = ',') t).headD []

/-- Embeds str::parse::<isize> on a 64-bit target: an optional sign
followed by one or more ASCII digits, with the value required to fit in
the signed 64-bit range. -/
def parseIsize (s : List Char) : Option Int :=
  let sign : Int := match s with
    | '-' :: _ => -1
    | _ => 1
  let digits : List Char := match s with
    | '-' :: rest => rest
    | '+' :: rest => rest
    | _ => s
  if digits = [] then none
  else if digits.all (fun c => c.isDigit) then
    let n : Nat := digits.foldl (fun acc c => acc * 10 + (c.toNat - 48)) 0
    let v : Int := sign * n
    if -(2 ^ 63) ≤ v ∧ v ≤ 2 ^ 63 - 1 then some v else none
  else none

/-- Decimal rendering of a Nat, as Display for usize. -/
def natToChars (n : Nat) : List Char :=
  (Nat.repr n).toList

/-- The rebuilt unidiff header (context.rs lines 75-78):
at-at -a,b +c,d at-at with the four recomputed values. -/
def mkHeader (a b c d : Nat) : List Char :=
  "@@ -".toList ++ natToChars a ++ [','] ++ natToChars b ++
    " +".toList ++ natToChars c ++ [','] ++ natToChars d ++ " @@".toList

/-- Final assembly (context.rs lines 63-103 after both header fields
parsed): saturating subtraction of the context-before length from each
absolute parsed start value, recomputed line counts, reassembled body,
joined text with one appended newline, and the four u32 casts. -/
def buildHunk (removed_count added_count : Nat)
    (context_before body context_after : List (List Char))
    (v0 v1 : Int) (is_binary : Bool) : Hunk :=
  let start_line_before := v0.natAbs - context_before.length
  let line_count_before :=
    removed_count + context_before.length + context_after.length
  let start_line_after := v1.natAbs - context_before.length
  let line_count_after :=
    added_count + context_before.length + context_after.length
  let header :=
    mkHeader start_line_before line_count_before start_line_after
      line_count_after
  let b := context_before ++ body ++ context_after
  let diff := List.intercalate ['\n'] (header :: b) ++ ['\n']
  { diff := diff
    old_start := start_line_before % 4294967296
    old_lines := line_count_before % 4294967296
    new_start := start_line_after % 4294967296
    new_lines := line_count_after % 4294967296
    binary := is_binary }

/-- Embedding of hunk_with_context (context.rs lines 4-105), with the
source's evaluation order: line split and counts, context-before loop,
context-after loop (first abort site), indexing of the first line
(abort when the hunk text has no lines), tokenisation and parse of the
first header field (first parse-error site), indexing and parse of the
second header field, then assembly. -/
def hunk_with_context (hunk_diff : List Char) (hunk_start_line : Nat)
    (is_binary : Bool) (context_lines : Nat)
    (file_lines_before : List (List Char)) : Except RunError Hunk :=
  let diff_lines := rustLines hunk_diff
  let removed_count := diff_lines.countP (startsWithChar '-')
  let added_count := diff_lines.countP (startsWithChar '+')
  let context_before :=
    contextBefore hunk_start_line context_lines file_lines_before
  match contextAfter hunk_start_line removed_count context_lines
      file_lines_before with
  | Except.error e => Except.error e
  | Except.ok context_after =>
    match diff_lines with
    | [] =>
      Except.error (RunError.crash
        "index out of bounds: the len is 0 but the index is 0")
    | headerLine :: body =>
      let toks := headerTokens headerLine
      match toks.get? 0 with
      | none =>
        Except.error (RunError.crash
          "index out of bounds: the len is 0 but the index is 0")
      | some t0 =>
        match parseIsize (commaHead t0) with
        | none =>
          Except.error (RunError.parseError
            "failed to parse unidiff header value for start line before")
        | some v0 =>
          match toks.get? 1 with
          | none =>
            Except.error (RunError.crash
              "index out of bounds: the len is 1 but the index is 1")
          | some t1 =>
            match parseIsize (commaHead t1) with
            | none =>
              Except.error (RunError.parseError
                "failed to parse unidiff header value for start line after")
            | some v1 =>
              Except.ok (buildHunk removed_count added_count
                context_before body context_after v0 v1 is_binary)

/-- Header token list of a hunk text: tokens of its first line. -/
def headerToks (hunk_diff : List Char) : List (List Char) :=
  headerTokens ((rustLines hunk_diff).headD [])

/-- First numeric header field of a hunk text (before any comma). -/
def headerTok0 (hunk_diff : List Char) : List Char :=
  commaHead ((headerToks hunk_diff).getD 0 [])

/-- Second numeric header field of a hunk text (before any comma). -/
def headerTok1 (hunk_diff : List Char) : List Char :=
  commaHead ((headerToks hunk_diff).getD 1 [])

/-- Projection of a successful result, with an inert default on
errors; used to name concrete successful outputs in witnesses. -/
def okOr (x : Except RunError Hunk) : Hunk :=
  match x with
  | Except.ok hk => hk
  | Except.error _ =>
    { diff := [], old_start := 0, old_lines := 0, new_start := 0,
      new_lines := 0, binary := false }

/-! Characterisations of the two context loops. -/

theorem except_bind_ok {ε α β : Type} (a : α) (g : α → Except ε β) :
    ((Except.ok a : Except ε α) >>= g) = g a := rfl

theorem except_bind_error {ε α β : Type} (e : ε) (g : α → Except ε β) :
    ((Except.error e : Except ε α) >>= g) = Except.error e := rfl

theorem get?_of_lt {α : Type} (l : List α) (n : Nat) (hn : n < l.length)
    (d : α) : l.get? n = some (l.getD n d) := by
  simp [List.getD_eq_getElem?_getD, List.getElem?_eq_getElem hn]

theorem filterMap_ite_eq_map_filter {α : Type} (p : Nat → Prop)
    [DecidablePred p] (v : Nat → α) (l : List Nat) :
    l.filterMap (fun i => if p i then some (v i) else none)
      = (l.filter (fun i => decide (p i))).map v := by
  induction l with
  | nil => rfl
  | cons a l ih =>
    by_cases hp : p a <;> simp [hp, ih]

theorem filterMap_ite_range' {α : Type} (lo hi : Nat) (v : Nat → α) :
    ∀ (n s : Nat),
    (List.range' s n).filterMap
        (fun i => if lo ≤ i ∧ i < hi then some (v i) else none)
      = (List.range' (max s lo) (min (s + n) hi - max s lo)).map v := by
  intro n
  induction n with
  | zero => intro s; simp
  | succ n ih =>
    intro s
    rw [List.range'_succ, List.filterMap_cons]
    by_cases h1 : lo ≤ s ∧ s < hi
    · rw [if_pos h1, ih (s + 1)]
      have e2 : max (s + 1) lo = s + 1 := by omega
      have e1 : max s lo = s := by omega
      rw [e1, e2,
        show min (s + (n + 1)) hi - s = (min (s + 1 + n) hi - (s + 1)) + 1
          by omega,
        List.range'_succ, List.map_cons]
    · rw [if_neg h1, ih (s + 1)]
      rcases (by omega : s < lo ∨ hi ≤ s) with hc | hc
      · have e1 : max (s + 1) lo = max s lo := by omega
        have e2 : min (s + 1 + n) hi = min (s + (n + 1)) hi := by omega
        rw [e1, e2]
      · have z1 : min (s + 1 + n) hi - max (s + 1) lo = 0 := by omega
        have z2 : min (s + (n + 1)) hi - max s lo = 0 := by omega
        rw [z1, z2]
        simp

/-- Closed form of the context-before extraction: an ascending
contiguous block of space-prefixed file lines. -/
theorem contextBefore_closed (hs c : Nat) (f : List (List Char)) :
    contextBefore hs c f
      = (List.range' (hs - min (1 + c) hs)
            (min (1 + c) hs - max 1 (hs - f.length))).map
          (fun idx => ' ' :: f.getD idx []) := by
  have hpt : ∀ i ∈ List.range' 1 c,
      (if hs > i then
        (if hs - i - 1 < f.length then
          (f.get? (hs - i - 1)).map (fun l => ' ' :: l)
        else none)
      else none)
      = if hs - f.length ≤ i ∧ i < hs then
          some (' ' :: f.getD (hs - i - 1) []) else none := by
    intro i _
    by_cases h1 : hs > i
    · by_cases h2 : hs - i - 1 < f.length
      · rw [if_pos h1, if_pos h2, get?_of_lt f (hs - i - 1) h2 [],
          Option.map_some', if_pos (by omega)]
      · rw [if_pos h1, if_neg h2, if_neg (by omega)]
    · rw [if_neg h1, if_neg (by omega)]
  rw [contextBefore, List.filterMap_congr hpt,
    filterMap_ite_range' (hs - f.length) hs _ c 1, ← List.map_reverse,
    List.reverse_range', List.range'_eq_map_range, List.map_map,
    List.map_map]
  apply List.map_congr_left
  intro j hj
  rw [List.mem_range] at hj
  simp only [Function.comp]
  have harith :
      hs - (max 1 (hs - f.length)
          + (min (1 + c) hs - max 1 (hs - f.length)) - 1 - j) - 1
        = hs - min (1 + c) hs + j := by
    omega
  rw [harith]

/-- The loop of contextAfter never aborts on iterations whose index
sum is positive and at most usize::MAX, and collects exactly the
in-bounds candidates. -/
theorem foldlM_afterStep (hs r : Nat) (f : List (List Char))
    (hz : hs + r ≠ 0) :
    ∀ (is : List Nat),
    (∀ i ∈ is, hs + r + i ≤ 18446744073709551615) →
    ∀ (acc : List (List Char)),
    List.foldlM (afterStep hs r f) acc is
      = Except.ok (acc ++ is.filterMap (fun i =>
          if hs + r + i - 1 < f.length then
            (f.get? (hs + r + i - 1)).map (fun l => ' ' :: l)
          else none)) := by
  intro is
  induction is with
  | nil => intro _ acc; simp; rfl
  | cons i is ih =>
    intro hno acc
    have hni : hs + r + i ≤ 18446744073709551615 :=
      hno i (List.mem_cons_self i is)
    have hno' : ∀ j ∈ is, hs + r + j ≤ 18446744073709551615 :=
      fun j hj => hno j (List.mem_cons_of_mem i hj)
    rw [List.foldlM_cons, List.filterMap_cons]
    by_cases hb : hs + r + i - 1 < f.length
    · rw [show afterStep hs r f acc i
          = Except.ok (acc ++ [' ' :: f.getD (hs + r + i - 1) []]) from by
        rw [afterStep, if_neg (by omega), if_neg (by omega)]
        simp only [if_pos hb, get?_of_lt f _ hb [], Option.map_some']]
      rw [except_bind_ok, ih hno', if_pos hb, get?_of_lt f _ hb [],
        Option.map_some']
      simp
    · rw [show afterStep hs r f acc i = Except.ok acc from by
        rw [afterStep, if_neg (by omega), if_neg (by omega)]
        simp only [if_neg hb]]
      rw [except_bind_ok, ih hno', if_neg hb]

theorem contextAfter_zero (hs r : Nat) (f : List (List Char)) :
    contextAfter hs r 0 f
      = Except.error (RunError.crash "attempt to subtract with overflow") :=
  rfl

/-- With a positive context width but hunk_start_line and removed_count
both zero, the first loop iteration aborts on the checked index
computation. -/
theorem contextAfter_crash (hs r c : Nat) (f : List (List Char))
    (hc : c ≠ 0) (hz : hs + r = 0) :
    contextAfter hs r c f
      = Except.error (RunError.crash "attempt to subtract with overflow") := by
  simp only [contextAfter, if_neg hc]
  obtain ⟨c', rfl⟩ : ∃ c', c = c' + 1 := ⟨c - 1, by omega⟩
  have hcc : c' + 1 - 1 + 1 = c' + 1 := by omega
  rw [hcc, List.range'_succ, List.foldlM_cons,
    show afterStep hs r f [] 0
      = Except.error (RunError.crash "attempt to subtract with overflow")
      from by rw [afterStep, if_neg (by omega), if_pos (by omega)],
    except_bind_error]

/-- With a positive context width and positive index base, the loop
aborts on a checked addition as soon as some iteration pushes the sum
hunk_start_line + removed_count + i beyond usize::MAX; this happens
exactly when the largest iteration index c - 1 does so. -/
theorem contextAfter_add_crash (hs r c : Nat) (f : List (List Char))
    (hc : c ≠ 0) (hz : hs + r ≠ 0)
    (hov : 18446744073709551615 < hs + r + (c - 1)) :
    contextAfter hs r c f
      = Except.error (RunError.crash "attempt to add with overflow") := by
  simp only [contextAfter, if_neg hc]
  have hcc : c - 1 + 1 = c := by omega
  rw [hcc]
  set k := 18446744073709551616 - (hs + r) with hkdef
  have hkc : k < c := by omega
  rw [show List.range' 0 c = List.range' 0 k ++ List.range' k (c - k) from
      by
        have happ := List.range'_append_1 0 k (c - k)
        rw [Nat.zero_add, show c - k + k = c from by omega] at happ
        exact happ.symm,
    List.foldlM_append,
    foldlM_afterStep hs r f hz (List.range' 0 k)
      (by
        intro i hi
        rw [List.mem_range'_1] at hi
        omega),
    except_bind_ok]
  obtain ⟨m, hm⟩ : ∃ m, c - k = m + 1 := ⟨c - k - 1, by omega⟩
  rw [hm, List.range'_succ, List.foldlM_cons]
  have hstep : ∀ acc, afterStep hs r f acc k
      = Except.error (RunError.crash "attempt to add with overflow") := by
    intro acc
    rw [afterStep, if_pos (by omega)]
  rw [hstep, except_bind_error]

theorem contextAfter_ok (hs r c : Nat) (f : List (List Char))
    (hc : c ≠ 0) (hz : hs + r ≠ 0)
    (hov : hs + r + (c - 1) ≤ 18446744073709551615) :
    contextAfter hs r c f
      = Except.ok ((List.range' 0 c).filterMap (fun i =>
          if hs + r + i - 1 < f.length then
            (f.get? (hs + r + i - 1)).map (fun l => ' ' :: l)
          else none)) := by
  simp only [contextAfter, if_neg hc]
  have hcc : c - 1 + 1 = c := by omega
  rw [hcc, foldlM_afterStep hs r f hz (List.range' 0 c)
    (by
      intro i hi
      rw [List.mem_range'_1] at hi
      omega)]
  rfl

/-- Closed form of the context-after extraction: an ascending
contiguous block of space-prefixed file lines starting at the first
old-file index after the removed lines. -/
theorem contextAfter_closed (hs r c : Nat) (f : List (List Char))
    (hc : c ≠ 0) (hz : hs + r ≠ 0)
    (hov : hs + r + (c - 1) ≤ 18446744073709551615) :
    contextAfter hs r c f
      = Except.ok ((List.range' (hs + r - 1)
            (min c (f.length - (hs + r - 1)))).map
          (fun idx => ' ' :: f.getD idx [])) := by
  rw [contextAfter_ok hs r c f hc hz hov]
  congr 1
  have hpt : ∀ i ∈ List.range' 0 c,
      (if hs + r + i - 1 < f.length then
        (f.get? (hs + r + i - 1)).map (fun l => ' ' :: l)
      else none)
      = if 0 ≤ i ∧ i < f.length - (hs + r - 1) then
          some (' ' :: f.getD (hs + r - 1 + i) []) else none := by
    intro i _
    have hidx : hs + r + i - 1 = hs + r - 1 + i := by omega
    by_cases hb : hs + r + i - 1 < f.length
    · rw [if_pos hb, get?_of_lt f _ hb [], Option.map_some',
        if_pos (by omega), hidx]
    · rw [if_neg hb, if_neg (by omega)]
  rw [List.filterMap_congr hpt,
    filterMap_ite_range' 0 (f.length - (hs + r - 1)) _ c 0]
  have e1 : max 0 0 = 0 := rfl
  rw [e1, Nat.sub_zero, Nat.zero_add]
  rw [show List.range' (hs + r - 1) (min c (f.length - (hs + r - 1)))
        = (List.range' 0 (min c (f.length - (hs + r - 1)))).map
            (fun i => hs + r - 1 + i) from by
      rw [show (fun i => hs + r - 1 + i) = (HAdd.hAdd (hs + r - 1))
          from rfl,
        List.map_add_range', Nat.add_zero],
    List.map_map]
  apply List.map_congr_left
  intro j _
  rfl

/-! Unfolding equations for hunk_with_context, one per outcome. -/

theorem hwc_of_ca_error (d : List Char) (hs : Nat) (b : Bool) (c : Nat)
    (f : List (List Char)) (e : RunError)
    (hca : contextAfter hs (removedCount d) c f = Except.error e) :
    hunk_with_context d hs b c f = Except.error e := by
  simp only [removedCount] at hca
  simp only [hunk_with_context, hca]

theorem hwc_of_empty (d : List Char) (hs : Nat) (b : Bool) (c : Nat)
    (f : List (List Char)) (ca : List (List Char))
    (hca : contextAfter hs (removedCount d) c f = Except.ok ca)
    (hL : rustLines d = []) :
    hunk_with_context d hs b c f
      = Except.error (RunError.crash
          "index out of bounds: the len is 0 but the index is 0") := by
  simp only [removedCount, hL] at hca
  simp only [hunk_with_context, hL, hca]

theorem hwc_of_no_tok0 (d : List Char) (hs : Nat) (b : Bool) (c : Nat)
    (f : List (List Char)) (ca hdr : _) (body : List (List Char))
    (hca : contextAfter hs (removedCount d) c f = Except.ok ca)
    (hL : rustLines d = hdr :: body)
    (h0 : (headerTokens hdr).get? 0 = none) :
    hunk_with_context d hs b c f
      = Except.error (RunError.crash
          "index out of bounds: the len is 0 but the index is 0") := by
  simp only [removedCount, hL] at hca
  simp only [hunk_with_context, hL, hca, h0]

theorem hwc_of_parse0_fail (d : List Char) (hs : Nat) (b : Bool) (c : Nat)
    (f : List (List Char)) (ca hdr t0 : _) (body : List (List Char))
    (hca : contextAfter hs (removedCount d) c f = Except.ok ca)
    (hL : rustLines d = hdr :: body)
    (h0 : (headerTokens hdr).get? 0 = some t0)
    (hp0 : parseIsize (commaHead t0) = none) :
    hunk_with_context d hs b c f
      = Except.error (RunError.parseError
          "failed to parse unidiff header value for start line before") := by
  simp only [removedCount, hL] at hca
  simp only [hunk_with_context, hL, hca, h0, hp0]

theorem hwc_of_no_tok1 (d : List Char) (hs : Nat) (b : Bool) (c : Nat)
    (f : List (List Char)) (ca hdr t0 : _) (body : List (List Char))
    (v0 : Int)
    (hca : contextAfter hs (removedCount d) c f = Except.ok ca)
    (hL : rustLines d = hdr :: body)
    (h0 : (headerTokens hdr).get? 0 = some t0)
    (hp0 : parseIsize (commaHead t0) = some v0)
    (h1 : (headerTokens hdr).get? 1 = none) :
    hunk_with_context d hs b c f
      = Except.error (RunError.crash
          "index out of bounds: the len is 1 but the index is 1") := by
  simp only [removedCount, hL] at hca
  simp only [hunk_with_context, hL, hca, h0, hp0, h1]

theorem hwc_of_parse1_fail (d : List Char) (hs : Nat) (b : Bool) (c : Nat)
    (f : List (List Char)) (ca hdr t0 t1 : _) (body : List (List Char))
    (v0 : Int)
    (hca : contextAfter hs (removedCount d) c f = Except.ok ca)
    (hL : rustLines d = hdr :: body)
    (h0 : (headerTokens hdr).get? 0 = some t0)
    (hp0 : parseIsize (commaHead t0) = some v0)
    (h1 : (headerTokens hdr).get? 1 = some t1)
    (hp1 : parseIsize (commaHead t1) = none) :
    hunk_with_context d hs b c f
      = Except.error (RunError.parseError
          "failed to parse unidiff header value for start line after") := by
  simp only [removedCount, hL] at hca
  simp only [hunk_with_context, hL, hca, h0, hp0, h1, hp1]

theorem hwc_of_ok (d : List Char) (hs : Nat) (b : Bool) (c : Nat)
    (f : List (List Char)) (ca hdr t0 t1 : _) (body : List (List Char))
    (v0 v1 : Int)
    (hca : contextAfter hs (removedCount d) c f = Except.ok ca)
    (hL : rustLines d = hdr :: body)
    (h0 : (headerTokens hdr).get? 0 = some t0)
    (hp0 : parseIsize (commaHead t0) = some v0)
    (h1 : (headerTokens hdr).get? 1 = some t1)
    (hp1 : parseIsize (commaHead t1) = some v1) :
    hunk_with_context d hs b c f
      = Except.ok (buildHunk (removedCount d) (addedCount d)
          (contextBefore hs c f) body ca v0 v1 b) := by
  simp only [removedCount, hL] at hca
  simp only [hunk_with_context, hca, hL, h0, hp0, h1, hp1,
    removedCount, addedCount]

/-- Inversion: a successful run determines every intermediate value. -/
theorem hwc_ok_inv {d : List Char} {hs : Nat} {b : Bool} {c : Nat}
    {f : List (List Char)} {hk : Hunk}
    (hok : hunk_with_context d hs b c f = Except.ok hk) :
    ∃ hdr body ca t0 t1 v0 v1,
      rustLines d = hdr :: body ∧
      contextAfter hs (removedCount d) c f = Except.ok ca ∧
      (headerTokens hdr).get? 0 = some t0 ∧
      parseIsize (commaHead t0) = some v0 ∧
      (headerTokens hdr).get? 1 = some t1 ∧
      parseIsize (commaHead t1) = some v1 ∧
      hk = buildHunk (removedCount d) (addedCount d)
        (contextBefore hs c f) body ca v0 v1 b := by
  simp only [hunk_with_context] at hok
  split at hok
  next e hca => simp at hok
  next ca hca =>
    split at hok
    next hL => simp at hok
    next hdr body hL =>
      split at hok
      next h0 => simp at hok
      next t0 h0 =>
        split at hok
        next hp0 => simp at hok
        next v0 hp0 =>
          split at hok
          next h1 => simp at hok
          next t1 h1 =>
            split at hok
            next hp1 => simp at hok
            next v1 hp1 =>
              refine ⟨hdr, body, ca, t0, t1, v0, v1, hL, ?_, h0, hp0,
                h1, hp1, ?_⟩
              · rw [hL] at hca
                simp only [removedCount, hL]
                exact hca
              · have hbh := hok
                simp only [Except.ok.injEq] at hbh
                rw [← hbh]
                simp only [removedCount, addedCount, hL]

/-! Bridges between the match-level facts and the header-field
accessors defined on the whole hunk text. -/

theorem headerToks_eq (d : List Char) (hdr : List Char)
    (body : List (List Char)) (hL : rustLines d = hdr :: body) :
    headerToks d = headerTokens hdr := by
  simp [headerToks, hL]

theorem headerTok0_eq (d : List Char) (hdr : List Char)
    (body : List (List Char)) (t0 : List Char)
    (hL : rustLines d = hdr :: body)
    (h0 : (headerTokens hdr).get? 0 = some t0) :
    headerTok0 d = commaHead t0 := by
  simp only [List.get?_eq_getElem?] at h0
  simp [headerTok0, headerToks_eq d hdr body hL, h0]

theorem headerTok1_eq (d : List Char) (hdr : List Char)
    (body : List (List Char)) (t1 : List Char)
    (hL : rustLines d = hdr :: body)
    (h1 : (headerTokens hdr).get? 1 = some t1) :
    headerTok1 d = commaHead t1 := by
  simp only [List.get?_eq_getElem?] at h1
  simp [headerTok1, headerToks_eq d hdr body hL, h1]

/-! Concrete inputs used by witnesses and counterexamples. -/

/-- A five-line file used by several witnesses. -/
def exFile : List (List Char) :=
  (["aa", "bb", "cc", "dd", "ee"] : List String).map String.toList

/-- Replacement of line 2 of exFile, as produced without context. -/
def exDiff : List Char := "@@ -2 +2 @@\n-bb\n+BB".toList

/-- Replacement of line 4 of exFile, near the end of the file. -/
def exDiff4 : List Char := "@@ -4 +4 @@\n-dd\n+DD".toList

/-- A minimal hunk whose header start exceeds the u32 range. -/
def c4d : List Char := "@@ -4294967296 +1 @@\n-a\n+b".toList

/-- The two-line file for the header-overflow inputs. -/
def abFile : List (List Char) := [['a'], ['b']]

/-- A minimal hunk whose second header start exceeds the u32 range. -/
def c7d : List Char := "@@ -1 +4294967297 @@\n-a\n+b".toList

/-- A three-line hunk used for the zero-context-width input. -/
def c3d : List Char := "@@ -1 +1 @@\n-a\n+b".toList

/-- A hunk with no removed lines, used with hunk_start_line 0. -/
def c9d : List Char := "@@ -0 +0 @@\n+x".toList

/-- A one-addition hunk used against the four-billion-line file. -/
def c1d : List Char := "@@ -1 +1 @@\n+y".toList

/-- A hunk whose header line itself starts with a minus sign; its two
tokens parse, so the run succeeds with the header counted as a removed
line. -/
def c1d2 : List Char := "-1 +2\n-a".toList

/-- A file with 2^32 identical lines. -/
def c1file : List (List Char) := List.replicate 4294967296 ['x']

/-- A minimal hunk whose header start is u32::MAX + 3. -/
def c10d : List Char := "@@ -4294967298 +1 @@\n+z".toList

/-! Claim C3. -/

/-- C3: with context_width 0 the source is claimed to return the hunk
unchanged apart from the header; the code instead evaluates the checked
usize expression context_lines - 1, which aborts.  This theorem
evaluates the embedding at such an input. -/
theorem c3_zero_context_width_crashes :
    hunk_with_context c3d 1 false 0 abFile
      = Except.error (RunError.crash "attempt to subtract with overflow") :=
  rfl

/-! Claim C9. -/

/-- C9: the context-after index computation
hunk_start_line + removed_count + i - 1 never underflows when
hunk_start_line + removed_count is at least 1: the run never aborts on
the checked subtraction (the only abort the loop can still produce is
the separate checked-addition overflow when the sum exceeds
usize::MAX, and below that bound the loop returns normally).  At the
concrete input with hunk_start_line 0, a body with no removed lines,
and context width 1, the computation at i = 0 underflows and the run
aborts instead of being bounds-rejected or reported as a parse
error. -/
theorem c9_after_index_underflow (hs r c : Nat) (f : List (List Char))
    (h1 : 1 ≤ hs + r) (h2 : 1 ≤ c) :
    ((hs + r + (c - 1) ≤ 18446744073709551615 →
        ∃ l, contextAfter hs r c f = Except.ok l) ∧
      contextAfter hs r c f
        ≠ Except.error
            (RunError.crash "attempt to subtract with overflow")) ∧
      hunk_with_context c9d 0 false 1 [['x']]
        = Except.error
            (RunError.crash "attempt to subtract with overflow") := by
  refine ⟨⟨fun hov =>
    ⟨_, contextAfter_ok hs r c f (by omega) (by omega) hov⟩, ?_⟩, rfl⟩
  by_cases hov : hs + r + (c - 1) ≤ 18446744073709551615
  · rw [contextAfter_ok hs r c f (by omega) (by omega) hov]
    simp
  · rw [contextAfter_add_crash hs r c f (by omega) (by omega) (by omega)]
    simp only [ne_eq, Except.error.injEq, RunError.crash.injEq]
    decide

/-- Witness for c9_after_index_underflow at hs 1, r 0, c 1. -/
theorem c9_after_index_underflow_witness :
    ((1 + 0 + (1 - 1) ≤ 18446744073709551615 →
        ∃ l, contextAfter 1 0 1 [] = Except.ok l) ∧
      contextAfter 1 0 1 []
        ≠ Except.error
            (RunError.crash "attempt to subtract with overflow")) ∧
      hunk_with_context c9d 0 false 1 [['x']]
        = Except.error
            (RunError.crash "attempt to subtract with overflow") :=
  c9_after_index_underflow 1 0 1 [] (by omega) (by omega)

/-! Claim C8. -/

/-- C1 (amended): for every successful run, old_lines is the sum of
the count of lines starting with a minus sign (taken over every line
of the hunk text, header line included, as the source filter runs over
all of diff_lines), the context-before length and the context-after
length, reduced modulo 2^32 (the as-u32 cast); new_lines is likewise
the plus-sign sum reduced modulo 2^32.  The reduction is the identity
whenever the sum is at most u32::MAX. -/
theorem c1_line_counts (d : List Char) (hs : Nat) (b : Bool) (c : Nat)
    (f : List (List Char)) (hk : Hunk)
    (hok : hunk_with_context d hs b c f = Except.ok hk) :
    ∃ ca, contextAfter hs (removedCount d) c f = Except.ok ca ∧
      hk.old_lines = (removedCount d + (contextBefore hs c f).length
          + ca.length) % 4294967296 ∧
      hk.new_lines = (addedCount d + (contextBefore hs c f).length
          + ca.length) % 4294967296 := by
  obtain ⟨hdr, body, ca, t0, t1, v0, v1, hL, hca, h0, hp0, h1, hp1, hbh⟩ :=
    hwc_ok_inv hok
  exact ⟨ca, hca, by rw [hbh]; rfl, by rw [hbh]; rfl⟩

/-- Witness for c1_line_counts at the exDiff input. -/
theorem c1_line_counts_witness :
    ∃ ca, contextAfter 2 (removedCount exDiff) 3 exFile = Except.ok ca ∧
      (okOr (hunk_with_context exDiff 2 false 3 exFile)).old_lines
        = (removedCount exDiff + (contextBefore 2 3 exFile).length
            + ca.length) % 4294967296 ∧
      (okOr (hunk_with_context exDiff 2 false 3 exFile)).new_lines
        = (addedCount exDiff + (contextBefore 2 3 exFile).length
            + ca.length) % 4294967296 :=
  c1_line_counts exDiff 2 false 3 exFile _ rfl

/-- C1 counterexample, two independent refutations of the claim as
stated.  First, on a 2^32-line file with context width 2^32 and one
added line, the context-after block has 2^32 lines and the returned
old_lines is 0 while the claimed sum is 2^32 (the as-u32 cast wraps).
Second, on the successful input whose header line "-1 +2" itself
starts with a minus sign, the returned old_lines is 2 although only
one body line starts with a minus and no context is added: the code
counts every line of the hunk text, header included. -/
theorem c1_counterexample :
    ((hunk_with_context c1d 1 false 4294967296 c1file).map
        (fun hk => hk.old_lines) = Except.ok 0 ∧
      removedCount c1d = 0 ∧
      contextBefore 1 4294967296 c1file = [] ∧
      (contextAfter 1 (removedCount c1d) 4294967296 c1file).map
        List.length = Except.ok 4294967296 ∧
      (0 : Nat)
        ≠ removedCount c1d + (contextBefore 1 4294967296 c1file).length
            + 4294967296) ∧
    ((hunk_with_context c1d2 1 false 1 abFile).map
        (fun hk => hk.old_lines) = Except.ok 2 ∧
      ((rustLines c1d2).tail).countP (startsWithChar '-') = 1 ∧
      contextBefore 1 1 abFile = [] ∧
      (contextAfter 1 (removedCount c1d2) 1 abFile).map
        List.length = Except.ok 0 ∧
      (2 : Nat)
        ≠ ((rustLines c1d2).tail).countP (startsWithChar '-')
            + (contextBefore 1 1 abFile).length + 0) := by
  refine ⟨?_, rfl, rfl, rfl, rfl, by decide⟩
  have hr : removedCount c1d = 0 := rfl
  have hlen : c1file.length = 4294967296 := by
    rw [show c1file = List.replicate 4294967296 ['x'] from rfl,
      List.length_replicate]
  have hcb : contextBefore 1 4294967296 c1file = [] := by
    rw [contextBefore_closed, hlen,
      show min (1 + 4294967296) 1 - max 1 (1 - 4294967296) = 0 from by
        omega]
    simp
  have hca : contextAfter 1 0 4294967296 c1file
      = Except.ok ((List.range' 0 4294967296).map
          (fun idx => ' ' :: c1file.getD idx [])) := by
    rw [contextAfter_closed 1 0 4294967296 c1file (by omega) (by omega)
        (by omega),
      hlen]
    norm_num
  have hcalen : ((List.range' 0 4294967296).map
      (fun idx => ' ' :: c1file.getD idx [])).length = 4294967296 := by
    rw [List.length_map, List.length_range']
  have hca' : contextAfter 1 (removedCount c1d) 4294967296 c1file
      = Except.ok ((List.range' 0 4294967296).map
          (fun idx => ' ' :: c1file.getD idx [])) := by
    rw [hr]
    exact hca
  have hres := hwc_of_ok c1d 1 false 4294967296 c1file
    ((List.range' 0 4294967296).map (fun idx => ' ' :: c1file.getD idx []))
    ("@@ -1 +1 @@".toList) ("-1".toList) ("+1".toList) (["+y".toList])
    (-1) 1 hca' rfl rfl (by decide) rfl (by decide)
  refine ⟨?_, hr, hcb, ?_, ?_⟩
  · rw [hres]
    simp only [Except.map, buildHunk, hr, hcb, hcalen]
    norm_num
  · rw [hca']
    simp only [Except.map, hcalen]
  · rw [hr, hcb]
    simp

/-! Claim C4. -/

/-- C4 (amended): for every successful run, old_start is the absolute
value of the integer parsed from the pre-comma part of the first header
token minus the context-before length (saturating at 0), reduced
modulo 2^32 by the as-u32 cast, and new_start likewise from the second
token; the reduction is the identity whenever the value is at most
u32::MAX. -/
theorem c4_start_values (d : List Char) (hs : Nat) (b : Bool) (c : Nat)
    (f : List (List Char)) (hk : Hunk)
    (hok : hunk_with_context d hs b c f = Except.ok hk) :
    ∃ v0 v1, parseIsize (headerTok0 d) = some v0 ∧
      parseIsize (headerTok1 d) = some v1 ∧
      hk.old_start
        = (v0.natAbs - (contextBefore hs c f).length) % 4294967296 ∧
      hk.new_start
        = (v1.natAbs - (contextBefore hs c f).length) % 4294967296 := by
  obtain ⟨hdr, body, ca, t0, t1, v0, v1, hL, hca, h0, hp0, h1, hp1, hbh⟩ :=
    hwc_ok_inv hok
  refine ⟨v0, v1, ?_, ?_, by rw [hbh]; rfl, by rw [hbh]; rfl⟩
  · rw [headerTok0_eq d hdr body t0 hL h0]
    exact hp0
  · rw [headerTok1_eq d hdr body t1 hL h1]
    exact hp1

/-- Witness for c4_start_values at the exDiff input. -/
theorem c4_start_values_witness :
    ∃ v0 v1, parseIsize (headerTok0 exDiff) = some v0 ∧
      parseIsize (headerTok1 exDiff) = some v1 ∧
      (okOr (hunk_with_context exDiff 2 false 3 exFile)).old_start
        = (v0.natAbs - (contextBefore 2 3 exFile).length) % 4294967296 ∧
      (okOr (hunk_with_context exDiff 2 false 3 exFile)).new_start
        = (v1.natAbs - (contextBefore 2 3 exFile).length) % 4294967296 :=
  c4_start_values exDiff 2 false 3 exFile _ rfl

/-- C4 counterexample: with header start 4294967296 (u32::MAX + 1) and
no context before, the claimed old_start would be 4294967296, but the
returned field is 0 after the as-u32 cast. -/
theorem c4_counterexample :
    parseIsize (headerTok0 c4d) = some (-4294967296) ∧
      ((-4294967296 : Int).natAbs
          - (contextBefore 1 1 abFile).length) = 4294967296 ∧
      (hunk_with_context c4d 1 false 1 abFile).map (fun hk => hk.old_start)
        = Except.ok 0 ∧
      (0 : Nat) ≠ 4294967296 :=
  ⟨rfl, rfl, rfl, by omega⟩

/-! Claim C5. -/

/-- C5: for every successful run with hunk_start_line at most the
context width, the context-before block has strictly fewer lines than
the width; a candidate with loop parameter i (1 to context_width) is
included exactly when hunk_start_line > i and the candidate index
hunk_start_line - i - 1 is within bounds; and the included lines form
an ascending contiguous block of file lines placed immediately before
the original body in the output. -/
theorem c5_before_boundary_clamp (d : List Char) (hs : Nat) (b : Bool)
    (c : Nat) (f : List (List Char)) (hk : Hunk)
    (hok : hunk_with_context d hs b c f = Except.ok hk)
    (hle : hs ≤ c) :
    (contextBefore hs c f).length < c ∧
    contextBefore hs c f
      = (((List.range' 1 c).filter (fun i =>
            decide (hs > i) && decide (hs - i - 1 < f.length))).map
          (fun i => ' ' :: f.getD (hs - i - 1) [])).reverse ∧
    contextBefore hs c f
      = (List.range' (hs - min (1 + c) hs)
            (min (1 + c) hs - max 1 (hs - f.length))).map
          (fun idx => ' ' :: f.getD idx []) ∧
    ∃ hdrLine ca, hk.diff
        = List.intercalate ['\n']
            (hdrLine :: (contextBefore hs c f ++ (rustLines d).tail ++ ca))
          ++ ['\n'] := by
  obtain ⟨hdr, body, ca, t0, t1, v0, v1, hL, hca, h0, hp0, h1, hp1, hbh⟩ :=
    hwc_ok_inv hok
  have hc : c ≠ 0 := by
    intro h0c
    subst h0c
    rw [contextAfter_zero] at hca
    simp at hca
  have hblen : (contextBefore hs c f).length
      = min (1 + c) hs - max 1 (hs - f.length) := by
    rw [contextBefore_closed, List.length_map, List.length_range']
  refine ⟨by rw [hblen]; omega, ?_, contextBefore_closed hs c f,
    ⟨_, ca, by rw [hbh, hL]; rfl⟩⟩
  have hpt : ∀ i ∈ List.range' 1 c,
      (if hs > i then
        (if hs - i - 1 < f.length then
          (f.get? (hs - i - 1)).map (fun l => ' ' :: l)
        else none)
      else none)
      = if hs > i ∧ hs - i - 1 < f.length then
          some (' ' :: f.getD (hs - i - 1) []) else none := by
    intro i _
    by_cases h1 : hs > i
    · by_cases h2 : hs - i - 1 < f.length
      · rw [if_pos h1, if_pos h2, get?_of_lt f (hs - i - 1) h2 [],
          Option.map_some', if_pos ⟨h1, h2⟩]
      · rw [if_pos h1, if_neg h2, if_neg (by tauto)]
    · rw [if_neg h1, if_neg (by tauto)]
  rw [contextBefore, List.filterMap_congr hpt,
    filterMap_ite_eq_map_filter
      (fun i => hs > i ∧ hs - i - 1 < f.length) _ _]
  simp only [Bool.decide_and]

/-- Witness for c5_before_boundary_clamp at the exDiff input. -/
theorem c5_before_boundary_clamp_witness :
    (contextBefore 2 3 exFile).length < 3 ∧
    contextBefore 2 3 exFile
      = (((List.range' 1 3).filter (fun i =>
            decide (2 > i) && decide (2 - i - 1 < exFile.length))).map
          (fun i => ' ' :: exFile.getD (2 - i - 1) [])).reverse ∧
    contextBefore 2 3 exFile
      = (List.range' (2 - min (1 + 3) 2)
            (min (1 + 3) 2 - max 1 (2 - exFile.length))).map
          (fun idx => ' ' :: exFile.getD idx []) ∧
    ∃ hdrLine ca,
      (okOr (hunk_with_context exDiff 2 false 3 exFile)).diff
        = List.intercalate ['\n']
            (hdrLine
              :: (contextBefore 2 3 exFile ++ (rustLines exDiff).tail ++ ca))
          ++ ['\n'] :=
  c5_before_boundary_clamp exDiff 2 false 3 exFile _ rfl (by omega)

/-! Claim C6. -/

/-- C6: for every successful run where fewer than context_width lines
of file_lines_before remain at or after the 0-based index
hunk_start_line + removed_count - 1, the context-after block has
exactly the number of remaining lines, not the requested width. -/
theorem c6_after_eof_clamp (d : List Char) (hs : Nat) (b : Bool)
    (c : Nat) (f : List (List Char)) (hk : Hunk)
    (hok : hunk_with_context d hs b c f = Except.ok hk)
    (hrem : f.length - (hs + removedCount d - 1) < c) :
    ∃ ca, contextAfter hs (removedCount d) c f = Except.ok ca ∧
      ca.length = f.length - (hs + removedCount d - 1) := by
  obtain ⟨hdr, body, ca, t0, t1, v0, v1, hL, hca, h0, hp0, h1, hp1, hbh⟩ :=
    hwc_ok_inv hok
  have hc : c ≠ 0 := by
    intro h0c
    subst h0c
    rw [contextAfter_zero] at hca
    simp at hca
  have hz : hs + removedCount d ≠ 0 := by
    intro h0z
    rw [contextAfter_crash hs (removedCount d) c f hc h0z] at hca
    simp at hca
  have hov : hs + removedCount d + (c - 1) ≤ 18446744073709551615 := by
    by_contra hcon
    rw [contextAfter_add_crash hs (removedCount d) c f hc hz
      (by omega)] at hca
    simp at hca
  refine ⟨_, contextAfter_closed hs (removedCount d) c f hc hz hov, ?_⟩
  rw [List.length_map, List.length_range']
  omega

/-- Witness for c6_after_eof_clamp at the exDiff4 input, one line from
the end of the five-line file. -/
theorem c6_after_eof_clamp_witness :
    ∃ ca, contextAfter 4 (removedCount exDiff4) 3 exFile = Except.ok ca ∧
      ca.length = exFile.length - (4 + removedCount exDiff4 - 1) :=
  c6_after_eof_clamp exDiff4 4 false 3 exFile _ rfl (by decide)

/-! Claim C7. -/

/-- C7 counterexample: with second header start u32::MAX + 2, the
emitted header line shows the untruncated computed value 4294967297
while the returned new_start field is its u32 cast 1, so the header
rebuilt from the four returned fields is not a prefix of the produced
text, refuting the claim that the header shows the returned fields. -/
theorem c7_counterexample :
    (hunk_with_context c7d 1 false 1 abFile).map (fun hk =>
        (mkHeader hk.old_start hk.old_lines hk.new_start
          hk.new_lines).isPrefixOf hk.diff)
      = Except.ok false :=
  rfl

/-- C7 (amended): for every successful run, the text is the header
line built from the internally computed unbounded values (which equal
the four returned fields reduced modulo 2^32, and coincide with them
whenever each value is at most u32::MAX), then the context-before
lines, the original body lines unchanged, and the context-after lines,
joined by newlines with one final newline; both context blocks carry a
single leading space per line, and the binary flag equals the
is_binary argument. -/
theorem c7_output_format (d : List Char) (hs : Nat) (b : Bool)
    (c : Nat) (f : List (List Char)) (hk : Hunk)
    (hok : hunk_with_context d hs b c f = Except.ok hk) :
    ∃ v0 v1 ca,
      parseIsize (headerTok0 d) = some v0 ∧
      parseIsize (headerTok1 d) = some v1 ∧
      contextAfter hs (removedCount d) c f = Except.ok ca ∧
      hk.diff = List.intercalate ['\n']
          (mkHeader (v0.natAbs - (contextBefore hs c f).length)
              (removedCount d + (contextBefore hs c f).length + ca.length)
              (v1.natAbs - (contextBefore hs c f).length)
              (addedCount d + (contextBefore hs c f).length + ca.length)
            :: (contextBefore hs c f ++ (rustLines d).tail ++ ca))
        ++ ['\n'] ∧
      hk.binary = b ∧
      hk.old_start
        = (v0.natAbs - (contextBefore hs c f).length) % 4294967296 ∧
      hk.old_lines
        = (removedCount d + (contextBefore hs c f).length + ca.length)
            % 4294967296 ∧
      hk.new_start
        = (v1.natAbs - (contextBefore hs c f).length) % 4294967296 ∧
      hk.new_lines
        = (addedCount d + (contextBefore hs c f).length + ca.length)
            % 4294967296 ∧
      (∀ l ∈ contextBefore hs c f, ∃ t, l = ' ' :: t) ∧
      (∀ l ∈ ca, ∃ t, l = ' ' :: t) := by
  obtain ⟨hdr, body, ca, t0, t1, v0, v1, hL, hca, h0, hp0, h1, hp1, hbh⟩ :=
    hwc_ok_inv hok
  have hc : c ≠ 0 := by
    intro h0c
    subst h0c
    rw [contextAfter_zero] at hca
    simp at hca
  have hz : hs + removedCount d ≠ 0 := by
    intro h0z
    rw [contextAfter_crash hs (removedCount d) c f hc h0z] at hca
    simp at hca
  have hov : hs + removedCount d + (c - 1) ≤ 18446744073709551615 := by
    by_contra hcon
    rw [contextAfter_add_crash hs (removedCount d) c f hc hz
      (by omega)] at hca
    simp at hca
  have hcav : (List.range' (hs + removedCount d - 1)
        (min c (f.length - (hs + removedCount d - 1)))).map
      (fun idx => ' ' :: f.getD idx []) = ca := by
    have h2 := contextAfter_closed hs (removedCount d) c f hc hz hov
    rw [h2] at hca
    simpa using hca
  refine ⟨v0, v1, ca, ?_, ?_, hca, by rw [hbh, hL]; rfl,
    by rw [hbh]; rfl, by rw [hbh]; rfl, by rw [hbh]; rfl,
    by rw [hbh]; rfl, by rw [hbh]; rfl, ?_, ?_⟩
  · rw [headerTok0_eq d hdr body t0 hL h0]
    exact hp0
  · rw [headerTok1_eq d hdr body t1 hL h1]
    exact hp1
  · intro l hl
    rw [contextBefore_closed] at hl
    obtain ⟨idx, -, rfl⟩ := List.mem_map.mp hl
    exact ⟨_, rfl⟩
  · intro l hl
    rw [← hcav] at hl
    obtain ⟨idx, -, rfl⟩ := List.mem_map.mp hl
    exact ⟨_, rfl⟩

/-- Witness for c7_output_format at the exDiff input. -/
theorem c7_output_format_witness :
    ∃ v0 v1 ca,
      parseIsize (headerTok0 exDiff) = some v0 ∧
      parseIsize (headerTok1 exDiff) = some v1 ∧
      contextAfter 2 (removedCount exDiff) 3 exFile = Except.ok ca ∧
      (okOr (hunk_with_context exDiff 2 false 3 exFile)).diff
        = List.intercalate ['\n']
            (mkHeader (v0.natAbs - (contextBefore 2 3 exFile).length)
                (removedCount exDiff + (contextBefore 2 3 exFile).length
                  + ca.length)
                (v1.natAbs - (contextBefore 2 3 exFile).length)
                (addedCount exDiff + (contextBefore 2 3 exFile).length
                  + ca.length)
              :: (contextBefore 2 3 exFile ++ (rustLines exDiff).tail ++ ca))
          ++ ['\n'] ∧
      (okOr (hunk_with_context exDiff 2 false 3 exFile)).binary = false ∧
      (okOr (hunk_with_context exDiff 2 false 3 exFile)).old_start
        = (v0.natAbs - (contextBefore 2 3 exFile).length) % 4294967296 ∧
      (okOr (hunk_with_context exDiff 2 false 3 exFile)).old_lines
        = (removedCount exDiff + (contextBefore 2 3 exFile).length
            + ca.length) % 4294967296 ∧
      (okOr (hunk_with_context exDiff 2 false 3 exFile)).new_start
        = (v1.natAbs - (contextBefore 2 3 exFile).length) % 4294967296 ∧
      (okOr (hunk_with_context exDiff 2 false 3 exFile)).new_lines
        = (addedCount exDiff + (contextBefore 2 3 exFile).length
            + ca.length) % 4294967296 ∧
      (∀ l ∈ contextBefore 2 3 exFile, ∃ t, l = ' ' :: t) ∧
      (∀ l ∈ ca, ∃ t, l = ' ' :: t) :=
  c7_output_format exDiff 2 false 3 exFile _ rfl

/-! Claim C10. -/

/-- C10: the four returned numeric fields are the internally computed
unbounded values reduced modulo 2^32 (the plain as-u32 cast); they
equal the computed values exactly whenever those are at most u32::MAX,
and at the concrete input with header start 4294967298 the returned
old_start 2 differs from the computed value 4294967298. -/
theorem c10_u32_cast (d : List Char) (hs : Nat) (b : Bool)
    (c : Nat) (f : List (List Char)) (hk : Hunk)
    (hok : hunk_with_context d hs b c f = Except.ok hk) :
    (∃ v0 v1 ca,
      parseIsize (headerTok0 d) = some v0 ∧
      parseIsize (headerTok1 d) = some v1 ∧
      contextAfter hs (removedCount d) c f = Except.ok ca ∧
      (hk.old_start
          = (v0.natAbs - (contextBefore hs c f).length) % 4294967296 ∧
        (v0.natAbs - (contextBefore hs c f).length ≤ 4294967295 →
          hk.old_start = v0.natAbs - (contextBefore hs c f).length)) ∧
      (hk.new_start
          = (v1.natAbs - (contextBefore hs c f).length) % 4294967296 ∧
        (v1.natAbs - (contextBefore hs c f).length ≤ 4294967295 →
          hk.new_start = v1.natAbs - (contextBefore hs c f).length)) ∧
      (hk.old_lines
          = (removedCount d + (contextBefore hs c f).length + ca.length)
              % 4294967296 ∧
        (removedCount d + (contextBefore hs c f).length + ca.length
            ≤ 4294967295 →
          hk.old_lines
            = removedCount d + (contextBefore hs c f).length
                + ca.length)) ∧
      (hk.new_lines
          = (addedCount d + (contextBefore hs c f).length + ca.length)
              % 4294967296 ∧
        (addedCount d + (contextBefore hs c f).length + ca.length
            ≤ 4294967295 →
          hk.new_lines
            = addedCount d + (contextBefore hs c f).length
                + ca.length))) ∧
    ((hunk_with_context c10d 1 false 1 []).map (fun k => k.old_start)
        = Except.ok 2 ∧
      parseIsize (headerTok0 c10d) = some (-4294967298) ∧
      (2 : Nat) ≠ (-4294967298 : Int).natAbs
          - (contextBefore 1 1 ([] : List (List Char))).length) := by
  obtain ⟨hdr, body, ca, t0, t1, v0, v1, hL, hca, h0, hp0, h1, hp1, hbh⟩ :=
    hwc_ok_inv hok
  refine ⟨⟨v0, v1, ca, ?_, ?_, hca, ⟨by rw [hbh]; rfl, ?_⟩,
      ⟨by rw [hbh]; rfl, ?_⟩, ⟨by rw [hbh]; rfl, ?_⟩,
      ⟨by rw [hbh]; rfl, ?_⟩⟩, rfl, by decide, by decide⟩
  · rw [headerTok0_eq d hdr body t0 hL h0]
    exact hp0
  · rw [headerTok1_eq d hdr body t1 hL h1]
    exact hp1
  · intro hb
    rw [hbh]
    show (v0.natAbs - (contextBefore hs c f).length) % 4294967296 = _
    exact Nat.mod_eq_of_lt (by omega)
  · intro hb
    rw [hbh]
    show (v1.natAbs - (contextBefore hs c f).length) % 4294967296 = _
    exact Nat.mod_eq_of_lt (by omega)
  · intro hb
    rw [hbh]
    show (removedCount d + (contextBefore hs c f).length + ca.length)
        % 4294967296 = _
    exact Nat.mod_eq_of_lt (by omega)
  · intro hb
    rw [hbh]
    show (addedCount d + (contextBefore hs c f).length + ca.length)
        % 4294967296 = _
    exact Nat.mod_eq_of_lt (by omega)

/-- Witness for c10_u32_cast at the exDiff input. -/
theorem c10_u32_cast_witness :
    (∃ v0 v1 ca,
      parseIsize (headerTok0 exDiff) = some v0 ∧
      parseIsize (headerTok1 exDiff) = some v1 ∧
      contextAfter 2 (removedCount exDiff) 3 exFile = Except.ok ca ∧
      ((okOr (hunk_with_context exDiff 2 false 3 exFile)).old_start
          = (v0.natAbs - (contextBefore 2 3 exFile).length)
              % 4294967296 ∧
        (v0.natAbs - (contextBefore 2 3 exFile).length ≤ 4294967295 →
          (okOr (hunk_with_context exDiff 2 false 3 exFile)).old_start
            = v0.natAbs - (contextBefore 2 3 exFile).length)) ∧
      ((okOr (hunk_with_context exDiff 2 false 3 exFile)).new_start
          = (v1.natAbs - (contextBefore 2 3 exFile).length)
              % 4294967296 ∧
        (v1.natAbs - (contextBefore 2 3 exFile).length ≤ 4294967295 →
          (okOr (hunk_with_context exDiff 2 false 3 exFile)).new_start
            = v1.natAbs - (contextBefore 2 3 exFile).length)) ∧
      ((okOr (hunk_with_context exDiff 2 false 3 exFile)).old_lines
          = (removedCount exDiff + (contextBefore 2 3 exFile).length
              + ca.length) % 4294967296 ∧
        (removedCount exDiff + (contextBefore 2 3 exFile).length
            + ca.length ≤ 4294967295 →
          (okOr (hunk_with_context exDiff 2 false 3 exFile)).old_lines
            = removedCount exDiff + (contextBefore 2 3 exFile).length
                + ca.length)) ∧
      ((okOr (hunk_with_context exDiff 2 false 3 exFile)).new_lines
          = (addedCount exDiff + (contextBefore 2 3 exFile).length
              + ca.length) % 4294967296 ∧
        (addedCount exDiff + (contextBefore 2 3 exFile).length
            + ca.length ≤ 4294967295 →
          (okOr (hunk_with_context exDiff 2 false 3 exFile)).new_lines
            = addedCount exDiff + (contextBefore 2 3 exFile).length
                + ca.length))) ∧
    ((hunk_with_context c10d 1 false 1 []).map (fun k => k.old_start)
        = Except.ok 2 ∧
      parseIsize (headerTok0 c10d) = some (-4294967298) ∧
      (2 : Nat) ≠ (-4294967298 : Int).natAbs
          - (contextBefore 1 1 ([] : List (List Char))).length) :=
  c10_u32_cast exDiff 2 false 3 exFile _ rfl

/-! Claim C2, counterexample part. -/

/-- C2 counterexample: the claim asserts that an empty hunk_diff is
accepted and produces a Hunk; the code instead aborts indexing the
first line of an empty line list. -/
theorem c2_counterexample :
    hunk_with_context [] 1 false 1 []
      = Except.error (RunError.crash
          "index out of bounds: the len is 0 but the index is 0") :=
  rfl

/-- C2 (amended): among inputs on which no abort happens — positive
context width, hunk_start_line + removed_count positive and with
hunk_start_line + removed_count + (context_width - 1) at most
usize::MAX (so the loop's checked additions cannot overflow), a
non-empty line list, and a header with the indexed tokens present —
the run fails exactly when a leading numeric field does not parse as a
64-bit signed integer; a successful Hunk is produced exactly when no
abort condition holds and both fields parse.  Inputs with context
width 0, an empty hunk text, a header with fewer than two tokens,
hunk_start_line 0 with no removed lines, or an index sum beyond
usize::MAX abort instead of returning. -/
theorem c2_error_classification (d : List Char) (hs : Nat) (b : Bool)
    (c : Nat) (f : List (List Char)) :
    ((∃ hk, hunk_with_context d hs b c f = Except.ok hk) ↔
      (c ≠ 0 ∧ hs + removedCount d ≠ 0 ∧
        hs + removedCount d + (c - 1) ≤ 18446744073709551615 ∧
        rustLines d ≠ [] ∧
        2 ≤ (headerToks d).length ∧
        (parseIsize (headerTok0 d)).isSome = true ∧
        (parseIsize (headerTok1 d)).isSome = true)) ∧
    ((∃ m, hunk_with_context d hs b c f
          = Except.error (RunError.parseError m)) ↔
      (c ≠ 0 ∧ hs + removedCount d ≠ 0 ∧
        hs + removedCount d + (c - 1) ≤ 18446744073709551615 ∧
        rustLines d ≠ [] ∧
        headerToks d ≠ [] ∧
        ((parseIsize (headerTok0 d)).isNone = true ∨
          (2 ≤ (headerToks d).length ∧
            (parseIsize (headerTok1 d)).isNone = true)))) := by
  by_cases hc : c = 0
  · subst hc
    rw [hwc_of_ca_error d hs b 0 f _
      (contextAfter_zero hs (removedCount d) f)]
    exact ⟨by simp, by simp⟩
  by_cases hz : hs + removedCount d = 0
  · rw [hwc_of_ca_error d hs b c f _
      (contextAfter_crash hs (removedCount d) c f hc hz)]
    exact ⟨by simp [hz], by simp [hz]⟩
  by_cases hov : 18446744073709551615 < hs + removedCount d + (c - 1)
  · rw [hwc_of_ca_error d hs b c f _
      (contextAfter_add_crash hs (removedCount d) c f hc hz hov)]
    have hno : ¬ hs + removedCount d + (c - 1) ≤ 18446744073709551615 :=
      by omega
    exact ⟨by simp [hno], by simp [hno]⟩
  obtain ⟨ca, hca⟩ :
      ∃ ca, contextAfter hs (removedCount d) c f = Except.ok ca :=
    ⟨_, contextAfter_ok hs (removedCount d) c f hc hz (by omega)⟩
  rcases hL : rustLines d with _ | ⟨hdr, body⟩
  · rw [hwc_of_empty d hs b c f ca hca hL]
    exact ⟨by simp [hL], by simp [hL]⟩
  have hT := headerToks_eq d hdr body hL
  rcases h0 : (headerTokens hdr).get? 0 with _ | t0
  · have htoks : headerTokens hdr = [] := by
      cases hTk : headerTokens hdr with
      | nil => rfl
      | cons a l => rw [hTk] at h0; simp at h0
    rw [hwc_of_no_tok0 d hs b c f ca hdr body hca hL h0]
    exact ⟨by simp [hT, htoks], by simp [hT, htoks]⟩
  have ht0 : headerTok0 d = commaHead t0 :=
    headerTok0_eq d hdr body t0 hL h0
  have htoksne : headerToks d ≠ [] := by
    rw [hT]
    intro hE
    rw [hE] at h0
    simp at h0
  rcases hp0 : parseIsize (commaHead t0) with _ | v0
  · rw [hwc_of_parse0_fail d hs b c f ca hdr t0 body hca hL h0 hp0]
    constructor
    · constructor
      · rintro ⟨hk, hEq⟩
        simp at hEq
      · rintro ⟨-, -, -, -, -, hsome, -⟩
        rw [ht0, hp0] at hsome
        simp at hsome
    · constructor
      · intro _
        exact ⟨hc, hz, by omega, by simp [hL], htoksne,
          Or.inl (by rw [ht0, hp0]; rfl)⟩
      · intro _
        exact ⟨_, rfl⟩
  rcases h1 : (headerTokens hdr).get? 1 with _ | t1
  · have hlen1 : (headerTokens hdr).length ≤ 1 := List.get?_eq_none.mp h1
    rw [hwc_of_no_tok1 d hs b c f ca hdr t0 body v0 hca hL h0 hp0 h1]
    constructor
    · constructor
      · rintro ⟨hk, hEq⟩
        simp at hEq
      · rintro ⟨-, -, -, -, hlen2, -⟩
        rw [hT] at hlen2
        omega
    · constructor
      · rintro ⟨m, hEq⟩
        simp at hEq
      · rintro ⟨-, -, -, -, -, hdisj⟩
        rcases hdisj with hno | ⟨hlen2, -⟩
        · rw [ht0, hp0] at hno
          simp at hno
        · rw [hT] at hlen2
          omega
  have ht1 : headerTok1 d = commaHead t1 :=
    headerTok1_eq d hdr body t1 hL h1
  have hlen2 : 2 ≤ (headerTokens hdr).length := by
    by_contra hcon
    rw [List.get?_eq_none.mpr (by omega)] at h1
    simp at h1
  rcases hp1 : parseIsize (commaHead t1) with _ | v1
  · rw [hwc_of_parse1_fail d hs b c f ca hdr t0 t1 body v0 hca hL h0
      hp0 h1 hp1]
    constructor
    · constructor
      · rintro ⟨hk, hEq⟩
        simp at hEq
      · rintro ⟨-, -, -, -, -, -, hsome⟩
        rw [ht1, hp1] at hsome
        simp at hsome
    · constructor
      · intro _
        exact ⟨hc, hz, by omega, by simp [hL], htoksne,
          Or.inr ⟨by rw [hT]; exact hlen2, by rw [ht1, hp1]; rfl⟩⟩
      · intro _
        exact ⟨_, rfl⟩
  · rw [hwc_of_ok d hs b c f ca hdr t0 t1 body v0 v1 hca hL h0 hp0
      h1 hp1]
    constructor
    · constructor
      · intro _
        exact ⟨hc, hz, by omega, by simp [hL], by rw [hT]; exact hlen2,
          by rw [ht0, hp0]; rfl, by rw [ht1, hp1]; rfl⟩
      · intro _
        exact ⟨_, rfl⟩
    · constructor
      · rintro ⟨m, hEq⟩
        simp at hEq
      · rintro ⟨-, -, -, -, -, hdisj⟩
        rcases hdisj with hno | ⟨-, hno⟩
        · rw [ht0, hp0] at hno
          simp at hno
        · rw [ht1, hp1] at hno
          simp at hno

/-- Witness for c2_error_classification at the exDiff input. -/
theorem c2_error_classification_witness :
    ((∃ hk, hunk_with_context exDiff 2 false 3 exFile = Except.ok hk) ↔
      (3 ≠ 0 ∧ 2 + removedCount exDiff ≠ 0 ∧
        2 + removedCount exDiff + (3 - 1) ≤ 18446744073709551615 ∧
        rustLines exDiff ≠ [] ∧
        2 ≤ (headerToks exDiff).length ∧
        (parseIsize (headerTok0 exDiff)).isSome = true ∧
        (parseIsize (headerTok1 exDiff)).isSome = true)) ∧
    ((∃ m, hunk_with_context exDiff 2 false 3 exFile
          = Except.error (RunError.parseError m)) ↔
      (3 ≠ 0 ∧ 2 + removedCount exDiff ≠ 0 ∧
        2 + removedCount exDiff + (3 - 1) ≤ 18446744073709551615 ∧
        rustLines exDiff ≠ [] ∧
        headerToks exDiff ≠ [] ∧
        ((parseIsize (headerTok0 exDiff)).isNone = true ∨
          (2 ≤ (headerToks exDiff).length ∧
            (parseIsize (headerTok1 exDiff)).isNone = true)))) :=
  c2_error_classification exDiff 2 false 3 exFile

end GitButler
